import Mathlib

/-!
Verification of the coordinate-mapping and outside-click utilities of
`src/js/imageeditor/shared/types.ts`.

The two behavioral functions of the repository are embedded shallowly:

* `get_coordinates_of_clicked_image` converts a mouse event over a scaled,
  letterboxed image element into a native-resolution pixel coordinate, or
  `none` when the click lands outside the image content.  Browser `number`
  values are modelled as exact rationals (`ℚ`); the natural image dimensions
  (DOM `naturalWidth`/`naturalHeight`, unsigned integers) as `ℕ`;
  `Math.round` as `⌊q + 1/2⌋`, JavaScript's round-half-toward-positive-
  infinity rule.

* `click_outside` installs a capturing document click listener that fires a
  callback for clicks outside a reference node.  DOM nodes are modelled by
  their path from the root (`List ℕ`), so that `Node.contains` becomes the
  path-prefix test, and the listener registration by a `Handle` with an
  `attached` flag that `destroy` clears.
-/

namespace Math

/-- JavaScript `Math.round`: nearest integer, exact halves toward `+∞`. -/
def round (q : ℚ) : ℤ := ⌊q + 1/2⌋

end Math

/-- Result of `getBoundingClientRect()`: viewport-space geometry. -/
structure DOMRect where
  left : ℚ
  top : ℚ
  width : ℚ
  height : ℚ

/-- The image element a pointer event fires on: its displayed bounding
rectangle and its natural (source-image) pixel dimensions. -/
structure HTMLImageElement where
  boundingClientRect : DOMRect
  naturalWidth : ℕ
  naturalHeight : ℕ

/-- A mouse event: absolute viewport coordinates plus the element
(`currentTarget`) it fired on. -/
structure MouseEvent where
  clientX : ℚ
  clientY : ℚ
  currentTarget : HTMLImageElement

/-- `image.naturalWidth / imageRect.width` from the source. -/
def xScale (evt : MouseEvent) : ℚ :=
  evt.currentTarget.naturalWidth / evt.currentTarget.boundingClientRect.width

/-- `image.naturalHeight / imageRect.height` from the source. -/
def yScale (evt : MouseEvent) : ℚ :=
  evt.currentTarget.naturalHeight / evt.currentTarget.boundingClientRect.height

/-- The image's displayed height in the width-constrained branch:
`image.naturalHeight / xScale`. -/
def displayed_height (evt : MouseEvent) : ℚ :=
  evt.currentTarget.naturalHeight / xScale evt

/-- Vertical letterbox offset in the width-constrained branch:
`(imageRect.height - displayed_height) / 2`. -/
def y_offset (evt : MouseEvent) : ℚ :=
  (evt.currentTarget.boundingClientRect.height - displayed_height evt) / 2

/-- The image's displayed width in the height-constrained branch:
`image.naturalWidth / yScale`. -/
def displayed_width (evt : MouseEvent) : ℚ :=
  evt.currentTarget.naturalWidth / yScale evt

/-- Horizontal letterbox offset in the height-constrained branch:
`(imageRect.width - displayed_width) / 2`. -/
def x_offset (evt : MouseEvent) : ℚ :=
  (evt.currentTarget.boundingClientRect.width - displayed_width evt) / 2

/-- The pair `(x, y)` computed by the two branches of
`get_coordinates_of_clicked_image` before the bounds check (the source's
`var x` / `var y`). -/
def raw_coords (evt : MouseEvent) : ℤ × ℤ :=
  let imageRect := evt.currentTarget.boundingClientRect
  if xScale evt > yScale evt then
    (Math.round ((evt.clientX - imageRect.left) * xScale evt),
     Math.round ((evt.clientY - imageRect.top - y_offset evt) * xScale evt))
  else
    (Math.round ((evt.clientX - imageRect.left - x_offset evt) * yScale evt),
     Math.round ((evt.clientY - imageRect.top) * yScale evt))

/-- Embedding of `get_coordinates_of_clicked_image` of
`src/js/imageeditor/shared/types.ts`: branch on the larger scale factor,
subtract the centered letterbox offset on the padded axis, round, then
reject coordinates outside `[0, naturalWidth) × [0, naturalHeight)`. -/
def get_coordinates_of_clicked_image (evt : MouseEvent) : Option (ℤ × ℤ) :=
  let image := evt.currentTarget
  let xy := raw_coords evt
  if xy.1 < 0 ∨ xy.1 ≥ (image.naturalWidth : ℤ) ∨
      xy.2 < 0 ∨ xy.2 ≥ (image.naturalHeight : ℤ) then
    none
  else
    some xy

/-- The same two branch computations before rounding is applied: the exact
rational coordinates of which `raw_coords` takes `Math.round`. -/
def unrounded_coords (evt : MouseEvent) : ℚ × ℚ :=
  let imageRect := evt.currentTarget.boundingClientRect
  if xScale evt > yScale evt then
    ((evt.clientX - imageRect.left) * xScale evt,
     (evt.clientY - imageRect.top - y_offset evt) * xScale evt)
  else
    ((evt.clientX - imageRect.left - x_offset evt) * yScale evt,
     (evt.clientY - imageRect.top) * yScale evt)

/-- The width-constrained mapping as the specification words it:
`x = round((clientX − rect.left) * scale_x)`,
`y = round((clientY − rect.top − y_offset) * scale_x)` with
`y_offset = (displayed_height − natural_height/scale_x)/2`, where
`displayed_height` is the box height. -/
def specWidthMap (evt : MouseEvent) : ℤ × ℤ :=
  let rect := evt.currentTarget.boundingClientRect
  let scale_x : ℚ := evt.currentTarget.naturalWidth / rect.width
  let yoff : ℚ := (rect.height - evt.currentTarget.naturalHeight / scale_x) / 2
  (Math.round ((evt.clientX - rect.left) * scale_x),
   Math.round ((evt.clientY - rect.top - yoff) * scale_x))

/-- The height-constrained mapping as the specification words it:
`x = round((clientX − rect.left − x_offset) * scale_y)` with
`x_offset = (displayed_width − natural_width/scale_y)/2`, and
`y = round((clientY − rect.top) * scale_y)`. -/
def specHeightMap (evt : MouseEvent) : ℤ × ℤ :=
  let rect := evt.currentTarget.boundingClientRect
  let scale_y : ℚ := evt.currentTarget.naturalHeight / rect.height
  let xoff : ℚ := (rect.width - evt.currentTarget.naturalWidth / scale_y) / 2
  (Math.round ((evt.clientX - rect.left - xoff) * scale_y),
   Math.round ((evt.clientY - rect.top) * scale_y))

/-- All four displayed/natural dimensions are positive (the precondition the
specification places on the mapper). -/
def posDims (evt : MouseEvent) : Prop :=
  0 < evt.currentTarget.boundingClientRect.width ∧
  0 < evt.currentTarget.boundingClientRect.height ∧
  0 < evt.currentTarget.naturalWidth ∧
  0 < evt.currentTarget.naturalHeight

/-- The click lies strictly inside the vertical (top/bottom) letterbox band:
the branch is width-constrained, the click is strictly inside the displayed
rectangle, and on the padded axis it misses the image content. -/
def inTopBottomPad (evt : MouseEvent) : Prop :=
  let rect := evt.currentTarget.boundingClientRect
  xScale evt > yScale evt ∧
  0 < evt.clientX - rect.left ∧ evt.clientX - rect.left < rect.width ∧
  0 < evt.clientY - rect.top ∧ evt.clientY - rect.top < rect.height ∧
  (evt.clientY - rect.top < y_offset evt ∨
   evt.clientY - rect.top > y_offset evt + displayed_height evt)

/-- The click lies strictly inside the horizontal (left/right) letterbox
band: the branch is height-constrained, the click is strictly inside the
displayed rectangle, and on the padded axis it misses the image content. -/
def inLeftRightPad (evt : MouseEvent) : Prop :=
  let rect := evt.currentTarget.boundingClientRect
  ¬ xScale evt > yScale evt ∧
  0 < evt.clientX - rect.left ∧ evt.clientX - rect.left < rect.width ∧
  0 < evt.clientY - rect.top ∧ evt.clientY - rect.top < rect.height ∧
  (evt.clientX - rect.left < x_offset evt ∨
   evt.clientX - rect.left > x_offset evt + displayed_width evt)

/-- The click lies strictly inside the letterboxed padding band. -/
def inPadBand (evt : MouseEvent) : Prop :=
  inTopBottomPad evt ∨ inLeftRightPad evt

/-- The displayed rectangle has the same aspect ratio as the natural image
(no letterboxing). -/
def noLetterbox (evt : MouseEvent) : Prop :=
  evt.currentTarget.boundingClientRect.width /
      evt.currentTarget.boundingClientRect.height =
    (evt.currentTarget.naturalWidth : ℚ) / evt.currentTarget.naturalHeight

/-- The click is at the exact center of the displayed rectangle. -/
def centerClick (evt : MouseEvent) : Prop :=
  evt.clientX = evt.currentTarget.boundingClientRect.left +
      evt.currentTarget.boundingClientRect.width / 2 ∧
  evt.clientY = evt.currentTarget.boundingClientRect.top +
      evt.currentTarget.boundingClientRect.height / 2

/-- `Node.contains` of the DOM, on nodes identified by their path of child
indices from the root: `node_contains a b` holds when `b` is `a` itself or a
descendant of `a`, i.e. when `a`'s path is an initial segment of `b`'s. -/
def node_contains : List ℕ → List ℕ → Bool
  | [], _ => true
  | _ :: _, [] => false
  | a :: as, b :: bs => a == b && node_contains as bs

/-- A document `click` event as the `click_outside` handler sees it: the
target node and whether its default action was already prevented. -/
structure ClickEvent where
  target : List ℕ
  defaultPrevented : Bool

/-- `handle_click` of `click_outside` in `src/js/imageeditor/shared/types.ts`:
the callback `cb` is invoked exactly when the guard
`node && !node.contains(event.target) && !event.defaultPrevented` passes.
A null node (`none`) is falsy, so the guard fails. -/
def handle_click_fires (node : Option (List ℕ)) (event : ClickEvent) : Bool :=
  match node with
  | none => false
  | some n => !(node_contains n event.target) && !event.defaultPrevented

/-- The object returned by `click_outside`: a registration handle whose only
state is whether the capturing document listener is still attached. -/
structure Handle where
  attached : Bool

/-- `click_outside(node, cb)`: performs
`document.addEventListener("click", handle_click, true)` and returns the
handle. -/
def click_outside (_node : Option (List ℕ)) : Handle :=
  { attached := true }

/-- `destroy()` of the returned handle:
`document.removeEventListener("click", handle_click, true)`; removing an
already-removed listener is a no-op, so the result does not depend on the
current state. -/
def Handle.destroy (_h : Handle) : Handle :=
  { attached := false }

/-- Whether a document click dispatched while the registration is in state
`h` invokes the callback: the listener must still be attached and the
`handle_click` guard must pass. -/
def dispatch (h : Handle) (node : Option (List ℕ)) (event : ClickEvent) :
    Bool :=
  h.attached && handle_click_fires node event

/-- `target` is strictly contained within node `n` (a proper descendant):
its path properly extends `n`'s path. -/
def strictlyWithin (target n : List ℕ) : Prop :=
  ∃ s, s ≠ [] ∧ target = n ++ s

/-! ### Helper lemmas -/

theorem node_contains_iff (a b : List ℕ) :
    node_contains a b = true ↔ ∃ s, b = a ++ s := by
  induction a generalizing b with
  | nil => simp [node_contains]
  | cons x xs ih =>
    cases b with
    | nil => simp [node_contains]
    | cons y ys =>
      simp only [node_contains, Bool.and_eq_true, beq_iff_eq, ih,
        List.cons_append, List.cons.injEq]
      constructor
      · rintro ⟨rfl, s, rfl⟩
        exact ⟨s, rfl, rfl⟩
      · rintro ⟨s, rfl, rfl⟩
        exact ⟨rfl, s, rfl⟩

theorem raw_coords_width (evt : MouseEvent)
    (hbr : xScale evt > yScale evt) :
    raw_coords evt =
      (Math.round
        ((evt.clientX - evt.currentTarget.boundingClientRect.left) *
          xScale evt),
       Math.round
        ((evt.clientY - evt.currentTarget.boundingClientRect.top -
            y_offset evt) * xScale evt)) := by
  simp only [raw_coords]
  rw [if_pos hbr]

theorem raw_coords_height (evt : MouseEvent)
    (hbr : ¬ xScale evt > yScale evt) :
    raw_coords evt =
      (Math.round
        ((evt.clientX - evt.currentTarget.boundingClientRect.left -
            x_offset evt) * yScale evt),
       Math.round
        ((evt.clientY - evt.currentTarget.boundingClientRect.top) *
          yScale evt)) := by
  simp only [raw_coords]
  rw [if_neg hbr]

theorem get_coordinates_eq (evt : MouseEvent) :
    get_coordinates_of_clicked_image evt =
      if (raw_coords evt).1 < 0 ∨
          (raw_coords evt).1 ≥ (evt.currentTarget.naturalWidth : ℤ) ∨
          (raw_coords evt).2 < 0 ∨
          (raw_coords evt).2 ≥ (evt.currentTarget.naturalHeight : ℤ) then
        none
      else
        some (raw_coords evt) := rfl

theorem xScale_pos (evt : MouseEvent) (h : posDims evt) : 0 < xScale evt := by
  obtain ⟨hw, -, hnw, -⟩ := h
  exact div_pos (by exact_mod_cast hnw) hw

theorem yScale_pos (evt : MouseEvent) (h : posDims evt) : 0 < yScale evt := by
  obtain ⟨-, hh, -, hnh⟩ := h
  exact div_pos (by exact_mod_cast hnh) hh

theorem scale_eq_of_noLetterbox (evt : MouseEvent) (h : posDims evt)
    (hnl : noLetterbox evt) : xScale evt = yScale evt := by
  obtain ⟨hw, hh, hnw, hnh⟩ := h
  have hnw' : (0:ℚ) < evt.currentTarget.naturalWidth := by exact_mod_cast hnw
  have hnh' : (0:ℚ) < evt.currentTarget.naturalHeight := by exact_mod_cast hnh
  unfold noLetterbox at hnl
  rw [div_eq_div_iff hh.ne' hnh'.ne'] at hnl
  unfold xScale yScale
  rw [div_eq_div_iff hw.ne' hh.ne']
  linarith [hnl]

theorem displayed_width_of_tie (evt : MouseEvent) (h : posDims evt)
    (ht : xScale evt = yScale evt) :
    displayed_width evt = evt.currentTarget.boundingClientRect.width := by
  obtain ⟨hw, hh, hnw, hnh⟩ := h
  have hnw' : (0:ℚ) < evt.currentTarget.naturalWidth := by exact_mod_cast hnw
  unfold displayed_width
  rw [← ht]
  unfold xScale
  rw [div_div_eq_mul_div, mul_comm, mul_div_assoc, div_self hnw'.ne',
    mul_one]

theorem x_offset_eq_zero_of_tie (evt : MouseEvent) (h : posDims evt)
    (ht : xScale evt = yScale evt) : x_offset evt = 0 := by
  unfold x_offset
  rw [displayed_width_of_tie evt h ht, sub_self, zero_div]

theorem displayed_height_of_tie (evt : MouseEvent) (h : posDims evt)
    (ht : xScale evt = yScale evt) :
    displayed_height evt = evt.currentTarget.boundingClientRect.height := by
  obtain ⟨hw, hh, hnw, hnh⟩ := h
  have hnh' : (0:ℚ) < evt.currentTarget.naturalHeight := by exact_mod_cast hnh
  unfold displayed_height
  rw [ht]
  unfold yScale
  rw [div_div_eq_mul_div, mul_comm, mul_div_assoc, div_self hnh'.ne',
    mul_one]

theorem y_offset_eq_zero_of_tie (evt : MouseEvent) (h : posDims evt)
    (ht : xScale evt = yScale evt) : y_offset evt = 0 := by
  unfold y_offset
  rw [displayed_height_of_tie evt h ht, sub_self, zero_div]

/-! ### Claim theorems -/

/-- C1: with positive displayed and natural dimensions, when
`scale_x > scale_y` the mapper computes the width-constrained formulas
(`x = round((clientX − rect.left)·scale_x)`,
`y = round((clientY − rect.top − y_offset)·scale_x)`), otherwise the
height-constrained ones, before the bounds check. -/
theorem mapper_branch_formulas (evt : MouseEvent) (_h : posDims evt) :
    raw_coords evt =
      if xScale evt > yScale evt then specWidthMap evt
      else specHeightMap evt := by
  by_cases hbr : xScale evt > yScale evt
  · rw [if_pos hbr, raw_coords_width evt hbr]
    simp only [specWidthMap, xScale, y_offset, displayed_height]
  · rw [if_neg hbr, raw_coords_height evt hbr]
    simp only [specHeightMap, yScale, x_offset, displayed_width]

def evW1 : MouseEvent := ⟨3, 4, ⟨⟨1, 1, 10, 5⟩, 20, 10⟩⟩

/-- Witness for C1 at a concrete event. -/
theorem mapper_branch_formulas_witness :
    raw_coords evW1 =
      if xScale evW1 > yScale evW1 then specWidthMap evW1
      else specHeightMap evW1 :=
  mapper_branch_formulas evW1 (by norm_num [posDims, evW1])

/-- C2: the mapper returns `none` exactly when the computed `x` lies outside
`[0, naturalWidth)` or the computed `y` lies outside `[0, naturalHeight)`;
otherwise it returns the computed pair, whose components lie in those
ranges. -/
theorem mapper_bounds_sentinel (evt : MouseEvent) :
    (get_coordinates_of_clicked_image evt = none ↔
      ((raw_coords evt).1 < 0 ∨
        (raw_coords evt).1 ≥ (evt.currentTarget.naturalWidth : ℤ) ∨
        (raw_coords evt).2 < 0 ∨
        (raw_coords evt).2 ≥ (evt.currentTarget.naturalHeight : ℤ))) ∧
    (∀ x y : ℤ, get_coordinates_of_clicked_image evt = some (x, y) →
      (x, y) = raw_coords evt ∧
      0 ≤ x ∧ x < (evt.currentTarget.naturalWidth : ℤ) ∧
      0 ≤ y ∧ y < (evt.currentTarget.naturalHeight : ℤ)) := by
  rw [get_coordinates_eq]
  by_cases hb : ((raw_coords evt).1 < 0 ∨
      (raw_coords evt).1 ≥ (evt.currentTarget.naturalWidth : ℤ) ∨
      (raw_coords evt).2 < 0 ∨
      (raw_coords evt).2 ≥ (evt.currentTarget.naturalHeight : ℤ))
  · rw [if_pos hb]
    refine ⟨iff_of_true rfl hb, ?_⟩
    intro x y hxy
    exact absurd hxy (by simp)
  · rw [if_neg hb]
    push_neg at hb
    obtain ⟨h1, h2, h3, h4⟩ := hb
    refine ⟨iff_of_false (by simp) ?_, ?_⟩
    · push_neg
      exact ⟨h1, h2, h3, h4⟩
    · intro x y hxy
      have hr : raw_coords evt = (x, y) := Option.some.inj hxy
      have hx1 : (raw_coords evt).1 = x := by rw [hr]
      have hy1 : (raw_coords evt).2 = y := by rw [hr]
      exact ⟨hr.symm, hx1 ▸ h1, hx1 ▸ h2, hy1 ▸ h3, hy1 ▸ h4⟩

def evW2 : MouseEvent := ⟨5, 5, ⟨⟨0, 0, 10, 10⟩, 10, 10⟩⟩

/-- Witness for C2 at a concrete event returning `some (5, 5)`. -/
theorem mapper_bounds_sentinel_witness :
    ((5:ℤ), (5:ℤ)) = raw_coords evW2 ∧
    0 ≤ (5:ℤ) ∧ (5:ℤ) < (evW2.currentTarget.naturalWidth : ℤ) ∧
    0 ≤ (5:ℤ) ∧ (5:ℤ) < (evW2.currentTarget.naturalHeight : ℤ) :=
  (mapper_bounds_sentinel evW2).2 5 5 (by
    norm_num [get_coordinates_of_clicked_image, raw_coords, xScale, yScale,
      x_offset, displayed_width, y_offset, displayed_height, Math.round,
      evW2])

/-- C3: with a non-null node, the callback fires exactly when the target is
not the node, not strictly contained within it, and the event's default
action has not been prevented. -/
theorem click_outside_fires_iff (n : List ℕ) (event : ClickEvent) :
    handle_click_fires (some n) event = true ↔
      (event.target ≠ n ∧ ¬ strictlyWithin event.target n ∧
        event.defaultPrevented = false) := by
  have hc : node_contains n event.target = false ↔
      ¬ ∃ s, event.target = n ++ s := by
    rw [← node_contains_iff]
    cases hnc : node_contains n event.target <;> simp
  simp only [strictlyWithin]
  constructor
  · intro hf
    simp only [handle_click_fires, Bool.and_eq_true, Bool.not_eq_true'] at hf
    obtain ⟨hnc, hdp⟩ := hf
    have hno := hc.mp hnc
    refine ⟨fun he => hno ⟨[], by simp [he]⟩, ?_, hdp⟩
    rintro ⟨s, -, hts⟩
    exact hno ⟨s, hts⟩
  · rintro ⟨hne, hnsw, hdp⟩
    simp only [handle_click_fires, Bool.and_eq_true, Bool.not_eq_true']
    refine ⟨hc.mpr ?_, hdp⟩
    rintro ⟨s, hts⟩
    cases s with
    | nil => exact hne (by simpa using hts)
    | cons a as => exact hnsw ⟨a :: as, by simp, hts⟩

/-- C4 counterexample: with a null node, a click whose default action has not
been prevented does NOT fire the callback (the guard `node && …` fails on a
falsy node), refuting "every qualifying click fires". -/
theorem click_outside_null_counterexample :
    handle_click_fires none { target := [0], defaultPrevented := false } ≠
      true := by
  decide

/-- C4 amended: when the reference node is null, no click ever fires the
callback — a null node is treated as "nothing is outside". -/
theorem click_outside_null_never_fires (event : ClickEvent) :
    handle_click_fires none event = false := rfl

/-- C7: the width-constrained computation is used exactly when
`scale_x > scale_y`, a tie takes the height-constrained branch, and at a tie
both computations coincide (both offsets vanish). -/
theorem branch_selection_tie (evt : MouseEvent) (h : posDims evt) :
    (xScale evt > yScale evt → raw_coords evt = specWidthMap evt) ∧
    (¬ xScale evt > yScale evt → raw_coords evt = specHeightMap evt) ∧
    (xScale evt = yScale evt → specWidthMap evt = specHeightMap evt) := by
  refine ⟨?_, ?_, ?_⟩
  · intro hbr
    rw [raw_coords_width evt hbr]
    simp only [specWidthMap, xScale, y_offset, displayed_height]
  · intro hbr
    rw [raw_coords_height evt hbr]
    simp only [specHeightMap, yScale, x_offset, displayed_width]
  · intro ht
    have hx0 := x_offset_eq_zero_of_tie evt h ht
    have hy0 := y_offset_eq_zero_of_tie evt h ht
    have hW : specWidthMap evt =
        (Math.round
          ((evt.clientX - evt.currentTarget.boundingClientRect.left) *
            xScale evt),
         Math.round
          ((evt.clientY - evt.currentTarget.boundingClientRect.top -
              y_offset evt) * xScale evt)) := by
      simp only [specWidthMap, xScale, y_offset, displayed_height]
    have hH : specHeightMap evt =
        (Math.round
          ((evt.clientX - evt.currentTarget.boundingClientRect.left -
              x_offset evt) * yScale evt),
         Math.round
          ((evt.clientY - evt.currentTarget.boundingClientRect.top) *
            yScale evt)) := by
      simp only [specHeightMap, yScale, x_offset, displayed_width]
    rw [hW, hH, hx0, hy0, ht, sub_zero, sub_zero]

def evW7 : MouseEvent := ⟨2, 3, ⟨⟨0, 0, 4, 2⟩, 8, 4⟩⟩

/-- Witness for C7's tie case at a concrete event with
`scale_x = scale_y = 2`. -/
theorem branch_selection_tie_witness :
    specWidthMap evW7 = specHeightMap evW7 :=
  (branch_selection_tie evW7 (by norm_num [posDims, evW7])).2.2
    (by norm_num [xScale, yScale, evW7])

/-- C8: teardown detaches the listener, is idempotent, and after teardown no
click invokes the callback, regardless of target. -/
theorem click_outside_teardown (h : Handle) :
    Handle.attached (Handle.destroy h) = false ∧
    Handle.destroy (Handle.destroy h) = Handle.destroy h ∧
    ∀ (node : Option (List ℕ)) (event : ClickEvent),
      dispatch (Handle.destroy h) node event = false :=
  ⟨rfl, rfl, fun _ _ => rfl⟩

/-- C10: both branches round both axes with the single rule `Math.round`,
which breaks exact half-integer ties toward positive infinity:
`round(n + 1/2) = n + 1` for every integer `n`, including negative ones. -/
theorem rounding_half_up :
    (∀ evt : MouseEvent,
      raw_coords evt =
        (Math.round (unrounded_coords evt).1,
         Math.round (unrounded_coords evt).2)) ∧
    (∀ n : ℤ, Math.round ((n : ℚ) + 1/2) = n + 1) := by
  constructor
  · intro evt
    by_cases hbr : xScale evt > yScale evt
    · simp only [raw_coords, unrounded_coords, if_pos hbr]
    · simp only [raw_coords, unrounded_coords, if_neg hbr]
  · intro n
    unfold Math.round
    have hcast : (n : ℚ) + 1/2 + 1/2 = ((n + 1 : ℤ) : ℚ) := by
      push_cast
      ring
    rw [hcast, Int.floor_intCast]

def ev5 : MouseEvent := ⟨50, 50, ⟨⟨0, 0, 200, 100⟩, 400, 100⟩⟩

/-- C5 counterexample: for a 200×100 box showing a 400×100 image,
`scale_x = 2 > scale_y = 1` selects the width-constrained branch, so the
click at viewport offset (50, 50) does NOT map to (50, 50). -/
theorem concrete_scenario_counterexample :
    get_coordinates_of_clicked_image ev5 ≠ some (50, 50) := by
  norm_num [get_coordinates_of_clicked_image, raw_coords, xScale, yScale,
    y_offset, displayed_height, x_offset, displayed_width, Math.round, ev5]

/-- C5 amended: that click maps to (100, 50): the width-constrained branch
gives `x = round(50·2) = 100` and `y = round((50 − 25)·2) = 50`. -/
theorem concrete_scenario_maps :
    get_coordinates_of_clicked_image ev5 = some (100, 50) := by
  norm_num [get_coordinates_of_clicked_image, raw_coords, xScale, yScale,
    y_offset, displayed_height, x_offset, displayed_width, Math.round, ev5]

def ev6 : MouseEvent := ⟨2, 2, ⟨⟨0, 0, 4, 8⟩, 2, 1⟩⟩

/-- C6 counterexample: a 4×8 box showing a 2×1 image letterboxes vertically
with `y_offset = 3`; the click at (2, 2) is strictly inside the top padding
band, yet `y = round((2 − 3)·(1/2)) = round(−1/2) = 0` is in bounds and the
mapper returns `some (1, 0)`, not the sentinel. -/
theorem pad_band_counterexample :
    inPadBand ev6 ∧ get_coordinates_of_clicked_image ev6 ≠ none := by
  constructor
  · norm_num [inPadBand, inTopBottomPad, inLeftRightPad, xScale, yScale,
      y_offset, displayed_height, ev6]
  · have h6 : get_coordinates_of_clicked_image ev6 = some (1, 0) := by
      norm_num [get_coordinates_of_clicked_image, raw_coords, xScale, yScale,
        y_offset, displayed_height, x_offset, displayed_width, Math.round,
        ev6]
    rw [h6]
    exact Option.some_ne_none _

/-- C6 amended: a click strictly inside the letterboxed padding band maps to
the sentinel provided it is not within half a native pixel of the image
content's leading edge: in the trailing (bottom/right) band always, and in
the leading (top/left) band whenever the viewport distance to the content
edge times the scale exceeds 1/2. -/
theorem pad_band_sentinel (evt : MouseEvent) (h : posDims evt)
    (hband :
      (inTopBottomPad evt ∧
        (evt.clientY - evt.currentTarget.boundingClientRect.top >
            y_offset evt + displayed_height evt ∨
          (y_offset evt -
              (evt.clientY - evt.currentTarget.boundingClientRect.top)) *
              xScale evt > 1/2)) ∨
      (inLeftRightPad evt ∧
        (evt.clientX - evt.currentTarget.boundingClientRect.left >
            x_offset evt + displayed_width evt ∨
          (x_offset evt -
              (evt.clientX - evt.currentTarget.boundingClientRect.left)) *
              yScale evt > 1/2))) :
    get_coordinates_of_clicked_image evt = none := by
  rw [get_coordinates_eq]
  rcases hband with ⟨hpad, hfar⟩ | ⟨hpad, hfar⟩
  · simp only [inTopBottomPad] at hpad
    obtain ⟨hbr, -, -, -, -, -⟩ := hpad
    have hxs : 0 < xScale evt := xScale_pos evt h
    have h2 : (raw_coords evt).2 =
        Math.round ((evt.clientY - evt.currentTarget.boundingClientRect.top -
          y_offset evt) * xScale evt) := by
      rw [raw_coords_width evt hbr]
    rcases hfar with hbot | htop
    · have hdh : displayed_height evt * xScale evt =
          (evt.currentTarget.naturalHeight : ℚ) := by
        unfold displayed_height
        exact div_mul_cancel₀ _ hxs.ne'
      have hgt : (evt.currentTarget.naturalHeight : ℚ) <
          (evt.clientY - evt.currentTarget.boundingClientRect.top -
            y_offset evt) * xScale evt := by
        rw [← hdh]
        apply mul_lt_mul_of_pos_right _ hxs
        linarith [hbot]
      have hge : (evt.currentTarget.naturalHeight : ℤ) ≤
          (raw_coords evt).2 := by
        rw [h2]
        unfold Math.round
        apply Int.le_floor.mpr
        push_cast
        linarith [hgt]
      rw [if_pos (Or.inr (Or.inr (Or.inr hge)))]
    · have hlt : (evt.clientY - evt.currentTarget.boundingClientRect.top -
          y_offset evt) * xScale evt < -(1/2) := by
        have hneg : (evt.clientY - evt.currentTarget.boundingClientRect.top -
            y_offset evt) * xScale evt =
            -((y_offset evt -
                (evt.clientY - evt.currentTarget.boundingClientRect.top)) *
              xScale evt) := by
          ring
        rw [hneg]
        linarith [htop]
      have hy0 : (raw_coords evt).2 < 0 := by
        rw [h2]
        unfold Math.round
        apply Int.floor_lt.mpr
        push_cast
        linarith [hlt]
      rw [if_pos (Or.inr (Or.inr (Or.inl hy0)))]
  · simp only [inLeftRightPad] at hpad
    obtain ⟨hbr, -, -, -, -, -⟩ := hpad
    have hys : 0 < yScale evt := yScale_pos evt h
    have h1 : (raw_coords evt).1 =
        Math.round ((evt.clientX - evt.currentTarget.boundingClientRect.left -
          x_offset evt) * yScale evt) := by
      rw [raw_coords_height evt hbr]
    rcases hfar with hrgt | hlft
    · have hdw : displayed_width evt * yScale evt =
          (evt.currentTarget.naturalWidth : ℚ) := by
        unfold displayed_width
        exact div_mul_cancel₀ _ hys.ne'
      have hgt : (evt.currentTarget.naturalWidth : ℚ) <
          (evt.clientX - evt.currentTarget.boundingClientRect.left -
            x_offset evt) * yScale evt := by
        rw [← hdw]
        apply mul_lt_mul_of_pos_right _ hys
        linarith [hrgt]
      have hge : (evt.currentTarget.naturalWidth : ℤ) ≤
          (raw_coords evt).1 := by
        rw [h1]
        unfold Math.round
        apply Int.le_floor.mpr
        push_cast
        linarith [hgt]
      rw [if_pos (Or.inr (Or.inl hge))]
    · have hlt : (evt.clientX - evt.currentTarget.boundingClientRect.left -
          x_offset evt) * yScale evt < -(1/2) := by
        have hneg : (evt.clientX - evt.currentTarget.boundingClientRect.left -
            x_offset evt) * yScale evt =
            -((x_offset evt -
                (evt.clientX - evt.currentTarget.boundingClientRect.left)) *
              yScale evt) := by
          ring
        rw [hneg]
        linarith [hlft]
      have hx0 : (raw_coords evt).1 < 0 := by
        rw [h1]
        unfold Math.round
        apply Int.floor_lt.mpr
        push_cast
        linarith [hlt]
      rw [if_pos (Or.inl hx0)]

def evW6 : MouseEvent := ⟨2, 1, ⟨⟨0, 0, 4, 8⟩, 2, 1⟩⟩

/-- Witness for C6 amended: a click two viewport pixels (one native pixel)
above the content edge in the top padding band maps to the sentinel. -/
theorem pad_band_sentinel_witness :
    get_coordinates_of_clicked_image evW6 = none :=
  pad_band_sentinel evW6 (by norm_num [posDims, evW6])
    (Or.inl ⟨by
      norm_num [inTopBottomPad, xScale, yScale, y_offset, displayed_height,
        evW6],
      Or.inr (by
        norm_num [y_offset, displayed_height, xScale, yScale, evW6])⟩)

def ev9 : MouseEvent := ⟨1, 1, ⟨⟨0, 0, 2, 2⟩, 1, 1⟩⟩

/-- C9 counterexample: a 2×2 box showing a 1×1 image preserves the aspect
ratio, but the center click yields `round(1/2) = 1`, which the bounds check
rejects: the mapper returns `none` rather than
`(round(naturalWidth/2), round(naturalHeight/2))`. -/
theorem center_click_counterexample :
    noLetterbox ev9 ∧ centerClick ev9 ∧
    get_coordinates_of_clicked_image ev9 ≠
      some (Math.round ((ev9.currentTarget.naturalWidth : ℚ) / 2),
            Math.round ((ev9.currentTarget.naturalHeight : ℚ) / 2)) := by
  refine ⟨by norm_num [noLetterbox, ev9], by norm_num [centerClick, ev9], ?_⟩
  have h9 : get_coordinates_of_clicked_image ev9 = none := by
    norm_num [get_coordinates_of_clicked_image, raw_coords, xScale, yScale,
      y_offset, displayed_height, x_offset, displayed_width, Math.round, ev9]
  rw [h9]
  exact fun hcontra => Option.noConfusion hcontra

/-- C9 amended: when the displayed rectangle preserves the natural aspect
ratio and both natural dimensions are at least 2, a click at the exact
center maps to `(round(naturalWidth/2), round(naturalHeight/2))`; with a
natural dimension of 1 the rounded half equals the dimension itself and the
bounds check returns the sentinel instead. -/
theorem center_click_maps (evt : MouseEvent) (h : posDims evt)
    (hnl : noLetterbox evt) (hc : centerClick evt)
    (hw2 : 2 ≤ evt.currentTarget.naturalWidth)
    (hh2 : 2 ≤ evt.currentTarget.naturalHeight) :
    get_coordinates_of_clicked_image evt =
      some (Math.round ((evt.currentTarget.naturalWidth : ℚ) / 2),
            Math.round ((evt.currentTarget.naturalHeight : ℚ) / 2)) := by
  obtain ⟨hw, hh, hnw, hnh⟩ := h
  have hpos : posDims evt := ⟨hw, hh, hnw, hnh⟩
  have hnh' : (0:ℚ) < evt.currentTarget.naturalHeight := by exact_mod_cast hnh
  have hts : xScale evt = yScale evt := scale_eq_of_noLetterbox evt hpos hnl
  have hbr : ¬ xScale evt > yScale evt := by
    rw [hts]
    exact lt_irrefl _
  have hx0 : x_offset evt = 0 := x_offset_eq_zero_of_tie evt hpos hts
  obtain ⟨hcx, hcy⟩ := hc
  have hrat : evt.currentTarget.boundingClientRect.width *
      (evt.currentTarget.naturalHeight : ℚ) =
      (evt.currentTarget.naturalWidth : ℚ) *
        evt.currentTarget.boundingClientRect.height := by
    have hnl' := hnl
    unfold noLetterbox at hnl'
    rw [div_eq_div_iff hh.ne' hnh'.ne'] at hnl'
    exact hnl'
  have hxval : (evt.clientX - evt.currentTarget.boundingClientRect.left -
      x_offset evt) * yScale evt =
      (evt.currentTarget.naturalWidth : ℚ) / 2 := by
    rw [hx0, sub_zero, hcx]
    have hsub : evt.currentTarget.boundingClientRect.left +
        evt.currentTarget.boundingClientRect.width / 2 -
        evt.currentTarget.boundingClientRect.left =
        evt.currentTarget.boundingClientRect.width / 2 := by
      ring
    rw [hsub]
    unfold yScale
    field_simp
    linear_combination 2 * hrat
  have hyval : (evt.clientY - evt.currentTarget.boundingClientRect.top) *
      yScale evt = (evt.currentTarget.naturalHeight : ℚ) / 2 := by
    rw [hcy]
    have hsub : evt.currentTarget.boundingClientRect.top +
        evt.currentTarget.boundingClientRect.height / 2 -
        evt.currentTarget.boundingClientRect.top =
        evt.currentTarget.boundingClientRect.height / 2 := by
      ring
    rw [hsub]
    unfold yScale
    field_simp
    ring
  have hraw : raw_coords evt =
      (Math.round ((evt.currentTarget.naturalWidth : ℚ) / 2),
       Math.round ((evt.currentTarget.naturalHeight : ℚ) / 2)) := by
    rw [raw_coords_height evt hbr, hxval, hyval]
  have hnw2 : (2:ℚ) ≤ (evt.currentTarget.naturalWidth : ℚ) := by
    exact_mod_cast hw2
  have hnh2 : (2:ℚ) ≤ (evt.currentTarget.naturalHeight : ℚ) := by
    exact_mod_cast hh2
  have hb1 : 0 ≤ Math.round ((evt.currentTarget.naturalWidth : ℚ) / 2) := by
    unfold Math.round
    apply Int.le_floor.mpr
    push_cast
    linarith
  have hb2 : Math.round ((evt.currentTarget.naturalWidth : ℚ) / 2) <
      (evt.currentTarget.naturalWidth : ℤ) := by
    unfold Math.round
    apply Int.floor_lt.mpr
    push_cast
    linarith
  have hb3 : 0 ≤ Math.round ((evt.currentTarget.naturalHeight : ℚ) / 2) := by
    unfold Math.round
    apply Int.le_floor.mpr
    push_cast
    linarith
  have hb4 : Math.round ((evt.currentTarget.naturalHeight : ℚ) / 2) <
      (evt.currentTarget.naturalHeight : ℤ) := by
    unfold Math.round
    apply Int.floor_lt.mpr
    push_cast
    linarith
  have hout : ¬ ((raw_coords evt).1 < 0 ∨
      (raw_coords evt).1 ≥ (evt.currentTarget.naturalWidth : ℤ) ∨
      (raw_coords evt).2 < 0 ∨
      (raw_coords evt).2 ≥ (evt.currentTarget.naturalHeight : ℤ)) := by
    rw [hraw]
    push_neg
    exact ⟨hb1, hb2, hb3, hb4⟩
  rw [get_coordinates_eq, if_neg hout, hraw]

def evW9 : MouseEvent := ⟨2, 2, ⟨⟨0, 0, 4, 4⟩, 2, 2⟩⟩

/-- Witness for C9 amended: a 4×4 box showing a 2×2 image; the center click
maps to `(round(1), round(1)) = (1, 1)`. -/
theorem center_click_maps_witness :
    get_coordinates_of_clicked_image evW9 =
      some (Math.round ((evW9.currentTarget.naturalWidth : ℚ) / 2),
            Math.round ((evW9.currentTarget.naturalHeight : ℚ) / 2)) :=
  center_click_maps evW9 (by norm_num [posDims, evW9])
    (by norm_num [noLetterbox, evW9]) (by norm_num [centerClick, evW9])
    (by norm_num [evW9]) (by norm_num [evW9])
